import Mathlib

/- Verification of the retrieval-augmented drafting pipeline
   (chunker, retriever, synthesizer JSON contract, reliability control flow)
   against its natural-language specification.

   The Lean definitions below are a shallow embedding of the Python source:
   * `chunk_text`, `splitLines`            — build_rag_index.py, chunk_text (lines 20-32)
   * `cosine_similarity`, `retrieve_context`, `retrieveTop`
                                           — docuwrite.py, cosine_similarity (71-78)
                                             and retrieve_context (92-117)
   * `llmToMfrJsonText`, `llmToOpordJsonText`, `synthesizeMfr`, `synthesizeOpord`
                                           — docuwrite.py, llm_to_mfr_json (209-220)
                                             and llm_to_opord_json (273-290); the JSON
                                             value model and `jsonParse` stand for
                                             Python json.loads restricted to the JSON
                                             constructs the contract exercises
   * `derive_subject`, `derive_paragraphs`, `mfr_prompt_run`
                                           — MFRPromptTool.py (run, _derive_subject,
                                             _derive_paragraphs)
   * `handleRequest`                       — docuwrite.py, the per-request body of
                                             main (lines 343-419): primary pipeline,
                                             exception capture, fallback selection.
   Machine floats are idealized as real numbers; external collaborators
   (embedding service, completion service, PDF renderer) enter as parameters. -/

/-! ### Chunker (build_rag_index.chunk_text) -/

/-- Model of Python `str.splitlines` restricted to the newline character:
    worker over the character list, accumulating the current line reversed. -/
def splitLinesAux : List Char → List Char → List String
  | [], acc => if acc.isEmpty then [] else [String.mk acc.reverse]
  | c :: cs, acc =>
    if c == '\n' then String.mk acc.reverse :: splitLinesAux cs []
    else splitLinesAux cs (c :: acc)

/-- `text.splitlines()` as used by `chunk_text`: a trailing newline produces no
    final empty line, and the empty string yields no lines. -/
def splitLines (s : String) : List String :=
  splitLinesAux s.data []

/-- The loop of `chunk_text`: accumulate lines into `cur` (with `total` the sum of
    their lengths); when appending the next line would push `total` past `maxChars`
    and `cur` is non-empty, emit `cur` and start a new chunk with that line.
    Chunks are kept as line lists; joining happens in `chunk_text`. -/
def chunkLinesAux (maxChars : Nat) :
    List String → List (List String) → List String → Nat → List (List String)
  | [], chunks, cur, _ => if cur.isEmpty then chunks else chunks ++ [cur]
  | line :: rest, chunks, cur, total =>
    if total + line.length > maxChars ∧ cur ≠ [] then
      chunkLinesAux maxChars rest (chunks ++ [cur]) [line] line.length
    else
      chunkLinesAux maxChars rest chunks (cur ++ [line]) (total + line.length)

/-- The chunks of `chunk_text(text, maxChars)` as lists of whole input lines. -/
def chunkLines (maxChars : Nat) (lines : List String) : List (List String) :=
  chunkLinesAux maxChars lines [] [] 0

/-- Python `sep.join(parts)`. -/
def joinWith (sep : String) : List String → String
  | [] => ""
  | [x] => x
  | x :: y :: xs => x ++ sep ++ joinWith sep (y :: xs)

/-- `"\n".join(cur)` as used when a chunk is emitted. -/
def joinNL (ls : List String) : String :=
  joinWith "\n" ls

/-- `chunk_text(text, max_chars)` from build_rag_index.py. -/
def chunk_text (text : String) (maxChars : Nat) : List String :=
  (chunkLines maxChars (splitLines text)).map joinNL

/-- Sum of the line lengths of a chunk (the quantity `total` tracks). -/
def sumLen (c : List String) : Nat :=
  (c.map String.length).sum

/-! ### Cosine similarity and retriever (docuwrite.py) -/

/-- `sum(x * y for x, y in zip(a, b))`. -/
noncomputable def dotProduct (a b : List ℝ) : ℝ :=
  ((a.zip b).map (fun p => p.1 * p.2)).sum

/-- `math.sqrt(sum(x * x for x in a))`, the Euclidean norm used by
    `cosine_similarity`. -/
noncomputable def norm2 (a : List ℝ) : ℝ :=
  Real.sqrt ((a.map (fun x => x * x)).sum)

/-- `cosine_similarity(a, b)` from docuwrite.py: 0.0 when either norm is zero,
    otherwise the normalized dot product. -/
noncomputable def cosine_similarity (a b : List ℝ) : ℝ :=
  if norm2 a = 0 ∨ norm2 b = 0 then 0
  else dotProduct a b / (norm2 a * norm2 b)

/-- One record of rag_index/index.json; a missing or null embedding is modelled
    as the empty list (both are falsy in the `if not emb` test of the source). -/
structure CorpusEntry where
  doc_type : String
  text : String
  embedding : List ℝ

/-- The `scored` list of `retrieve_context` before sorting: skip entries of the
    wrong doc_type, skip entries with a falsy embedding, score the rest. -/
noncomputable def scoreEntries (qEmb : List ℝ) (docType : String)
    (index : List CorpusEntry) : List (ℝ × String) :=
  index.filterMap (fun e =>
    if e.doc_type == docType then
      if e.embedding.isEmpty then none
      else some (cosine_similarity qEmb e.embedding, e.text)
    else none)

/-- Descending comparison on the score component, the order used by
    `scored.sort(key=lambda t: t[0], reverse=True)`. -/
def simGE (a b : ℝ × String) : Prop :=
  b.1 ≤ a.1

noncomputable instance : DecidableRel simGE :=
  fun a b => inferInstanceAs (Decidable (b.1 ≤ a.1))

instance : IsTotal (ℝ × String) simGE :=
  ⟨fun a b => le_total b.1 a.1⟩

instance : IsTrans (ℝ × String) simGE :=
  ⟨fun _ _ _ hab hbc => le_trans hbc hab⟩

/-- `scored` sorted descending and truncated to `k`: the retrieval result
    (`scored[:k]` after the sort in retrieve_context, lines 115-116). -/
noncomputable def retrieveTop (qEmb : List ℝ) (docType : String) (k : Nat)
    (index : List CorpusEntry) : List (ℝ × String) :=
  (List.insertionSort simGE (scoreEntries qEmb docType index)).take k

/-- `retrieve_context` (docuwrite.py lines 92-117), with the query embedding a
    parameter (the call to the embedding service stands outside the model). -/
noncomputable def retrieve_context (qEmb : List ℝ) (docType : String) (k : Nat)
    (index : List CorpusEntry) : String :=
  if index.isEmpty then ""
  else
    let scored := scoreEntries qEmb docType index
    if scored.isEmpty then ""
    else joinWith "\n\n---\n\n" (((List.insertionSort simGE scored).take k).map Prod.snd)

/-! ### JSON values and the extraction window (docuwrite.py JSON contract) -/

/-- JSON values as produced by `json.loads`; object members keep source order. -/
inductive Json where
  | null : Json
  | bool (b : Bool) : Json
  | num (q : ℚ) : Json
  | str (s : String) : Json
  | arr (xs : List Json) : Json
  | obj (kvs : List (String × Json)) : Json

/-- `k in data` for a parsed JSON value (dict membership; False on non-objects). -/
def hasKey : Json → String → Bool
  | Json.obj kvs, k => kvs.any (fun p => p.1 == k)
  | _, _ => false

/-- `data[k]` for a parsed JSON value: the value of the last member with the key,
    matching the last-wins behavior of `json.loads` on duplicate keys. -/
def getKey : Json → String → Option Json
  | Json.obj kvs, k => (kvs.reverse.find? (fun p => p.1 == k)).map Prod.snd
  | _, _ => none

/-- Whitespace accepted between JSON tokens. -/
def isJsonWs (c : Char) : Bool :=
  c == ' ' || c == '\t' || c == '\n' || c == '\r'

def skipWs : List Char → List Char
  | [] => []
  | c :: cs => if isJsonWs c then skipWs cs else c :: cs

/-- Decode one character of a JSON string body after a backslash. -/
def escapeChar : Char → Option Char
  | '\"' => some '\"'
  | '\\' => some '\\'
  | '/' => some '/'
  | 'n' => some '\n'
  | 't' => some '\t'
  | 'r' => some '\r'
  | 'b' => some (Char.ofNat 8)
  | 'f' => some (Char.ofNat 12)
  | _ => none

/-- Parse a JSON string body (the opening quote already consumed), returning the
    decoded characters and the input after the closing quote. -/
def parseStringBody : List Char → Option (List Char × List Char)
  | [] => none
  | c :: cs =>
    if c == '\"' then some ([], cs)
    else if c == '\\' then
      match cs with
      | [] => none
      | e :: cs2 =>
        match escapeChar e with
        | none => none
        | some ec =>
          match parseStringBody cs2 with
          | none => none
          | some (body, rest) => some (ec :: body, rest)
    else
      match parseStringBody cs with
      | none => none
      | some (body, rest) => some (c :: body, rest)

def digitVal (c : Char) : Nat := c.toNat - 48

def natOfDigits (ds : List Char) : Nat :=
  ds.foldl (fun n c => n * 10 + digitVal c) 0

/-- Parse a JSON number (optional minus, digits, optional fraction). -/
def parseNumber (cs : List Char) : Option (ℚ × List Char) :=
  let signed := match cs with
    | c :: rest => if c == '-' then (true, rest) else (false, cs)
    | [] => (false, cs)
  let intDigits := signed.2.takeWhile Char.isDigit
  let rest1 := signed.2.dropWhile Char.isDigit
  if intDigits.isEmpty then none
  else
    let ip : ℚ := (natOfDigits intDigits : ℕ)
    match rest1 with
    | '.' :: rest2 =>
      let fracDigits := rest2.takeWhile Char.isDigit
      if fracDigits.isEmpty then none
      else
        let v := ip + (natOfDigits fracDigits : ℚ) / ((10 : ℚ) ^ fracDigits.length)
        some (if signed.1 then -v else v, rest2.dropWhile Char.isDigit)
    | _ => some (if signed.1 then -ip else ip, rest1)

/-- Consume an expected literal character sequence. -/
def eatLit : List Char → List Char → Option (List Char)
  | [], cs => some cs
  | p :: ps, c :: cs => if c == p then eatLit ps cs else none
  | _ :: _, [] => none

mutual

/-- Fuel-bounded recursive-descent JSON value parser (model of `json.loads`;
    exponent notation and unicode escapes are outside the model). -/
def parseValue : Nat → List Char → Option (Json × List Char)
  | 0, _ => none
  | _ + 1, [] => none
  | fuel + 1, c :: cs =>
    if c == '\"' then
      match parseStringBody cs with
      | none => none
      | some (body, rest) => some (Json.str (String.mk body), rest)
    else if c == '\x7b' then
      match skipWs cs with
      | [] => none
      | d :: ds =>
        if d == '\x7d' then some (Json.obj [], ds)
        else
          match parseMembers fuel (d :: ds) with
          | none => none
          | some (kvs, rest) => some (Json.obj kvs, rest)
    else if c == '[' then
      match skipWs cs with
      | [] => none
      | d :: ds =>
        if d == ']' then some (Json.arr [], ds)
        else
          match parseItems fuel (d :: ds) with
          | none => none
          | some (xs, rest) => some (Json.arr xs, rest)
    else if c == 't' then
      match eatLit ['r', 'u', 'e'] cs with
      | some rest => some (Json.bool true, rest)
      | none => none
    else if c == 'f' then
      match eatLit ['a', 'l', 's', 'e'] cs with
      | some rest => some (Json.bool false, rest)
      | none => none
    else if c == 'n' then
      match eatLit ['u', 'l', 'l'] cs with
      | some rest => some (Json.null, rest)
      | none => none
    else
      match parseNumber (c :: cs) with
      | some (q, rest) => some (Json.num q, rest)
      | none => none

/-- Comma-separated array items, ending at the closing bracket. -/
def parseItems : Nat → List Char → Option (List Json × List Char)
  | 0, _ => none
  | fuel + 1, cs =>
    match parseValue fuel (skipWs cs) with
    | none => none
    | some (v, rest) =>
      match skipWs rest with
      | ',' :: rest2 =>
        match parseItems fuel rest2 with
        | none => none
        | some (vs, rest3) => some (v :: vs, rest3)
      | ']' :: rest2 => some ([v], rest2)
      | _ => none

/-- Comma-separated object members, ending at the closing brace. -/
def parseMembers : Nat → List Char → Option (List (String × Json) × List Char)
  | 0, _ => none
  | fuel + 1, cs =>
    match skipWs cs with
    | [] => none
    | q :: cs1 =>
      if q == '\"' then
        match parseStringBody cs1 with
        | none => none
        | some (keyChars, rest) =>
          match skipWs rest with
          | ':' :: rest2 =>
            match parseValue fuel (skipWs rest2) with
            | none => none
            | some (v, rest3) =>
              match skipWs rest3 with
              | ',' :: rest4 =>
                match parseMembers fuel rest4 with
                | none => none
                | some (kvs, rest5) => some ((String.mk keyChars, v) :: kvs, rest5)
              | '\x7d' :: rest4 => some ([(String.mk keyChars, v)], rest4)
              | _ => none
          | _ => none
      else none

end

/-- `json.loads(s)`: parse one JSON value surrounded only by whitespace. -/
def jsonParse (s : String) : Option Json :=
  match parseValue (2 * s.length + 2) (skipWs s.data) with
  | some (v, rest) => if (skipWs rest).isEmpty then some v else none
  | none => none

/-- Index of the first occurrence of a character (`str.find`). -/
def firstIdxOf (c : Char) : List Char → Option Nat
  | [] => none
  | d :: ds => if d == c then some 0 else (firstIdxOf c ds).map (· + 1)

/-- Index of the last occurrence of a character (`str.rfind`). -/
def lastIdxOf (c : Char) (cs : List Char) : Option Nat :=
  (firstIdxOf c cs.reverse).map (fun i => cs.length - 1 - i)

/-- The extraction window `text[first:last+1]` from the first opening brace to
    the last closing brace; `none` when either brace is missing or the last
    closing brace precedes the first opening brace (the ValueError paths of
    lines 210-213 and 274-277). -/
def braceWindow (s : String) : Option String :=
  match firstIdxOf '\x7b' s.data, lastIdxOf '\x7d' s.data with
  | some f, some l =>
    if l < f then none else some (String.mk ((s.data.drop f).take (l + 1 - f)))
  | _, _ => none

/-! ### Synthesizer validation (llm_to_mfr_json / llm_to_opord_json) -/

/-- The failure signals of the synthesis step; every constructor corresponds to
    one raise site (or to the completion call itself failing). -/
inductive GenError where
  | completion (msg : String) : GenError
  | noJson : GenError
  | jsonDecode : GenError
  | mfrMissingKeys : GenError
  | mfrBadSections : GenError
  | opordMissingKeys : GenError
deriving DecidableEq

/-- The JSON-extraction and validation tail of `llm_to_mfr_json` (lines 209-220),
    as a function of the raw completion reply text. -/
def llmToMfrJsonText (text : String) : Except GenError Json :=
  match braceWindow text with
  | none => Except.error GenError.noJson
  | some w =>
    match jsonParse w with
    | none => Except.error GenError.jsonDecode
    | some data =>
      if !hasKey data "subject" || !hasKey data "sections" then
        Except.error GenError.mfrMissingKeys
      else
        match getKey data "sections" with
        | some (Json.arr l) =>
          if l.isEmpty then Except.error GenError.mfrBadSections else Except.ok data
        | _ => Except.error GenError.mfrBadSections

/-- The required keys of the OPORD variant (docuwrite.py lines 280-287). -/
def opordRequired : List String :=
  ["title", "situation", "mission", "execution", "sustainment", "command_and_signal"]

/-- The JSON-extraction and validation tail of `llm_to_opord_json` (273-290). -/
def llmToOpordJsonText (text : String) : Except GenError Json :=
  match braceWindow text with
  | none => Except.error GenError.noJson
  | some w =>
    match jsonParse w with
    | none => Except.error GenError.jsonDecode
    | some data =>
      if opordRequired.any (fun k => !hasKey data k) then
        Except.error GenError.opordMissingKeys
      else Except.ok data

/-- The MFR synthesis step: a completion-service failure propagates as a
    generation failure; otherwise the reply is extracted and validated. -/
def synthesizeMfr (completion : Except String String) : Except GenError Json :=
  match completion with
  | Except.error m => Except.error (GenError.completion m)
  | Except.ok text => llmToMfrJsonText text

/-- The OPORD synthesis step. -/
def synthesizeOpord (completion : Except String String) : Except GenError Json :=
  match completion with
  | Except.error m => Except.error (GenError.completion m)
  | Except.ok text => llmToOpordJsonText text

/-! ### Template generator (MFRPromptTool) -/

/-- Python `str.strip` whitespace set. -/
def isPyWs (c : Char) : Bool :=
  c == ' ' || c == '\t' || c == '\n' || c == '\r' || c == '\x0b' || c == '\x0c'

/-- Python `s.strip()`. -/
def pyStrip (s : String) : String :=
  String.mk (((s.data.dropWhile isPyWs).reverse.dropWhile isPyWs).reverse)

/-- Python `s.replace("\n", " ")`. -/
def pyReplaceNl (s : String) : String :=
  String.mk (s.data.map (fun c => if c == '\n' then ' ' else c))

/-- Python `s.capitalize()` (ASCII): first character upper-cased, rest lowered. -/
def capitalizePy (s : String) : String :=
  match s.data with
  | [] => ""
  | c :: cs => String.mk (c.toUpper :: cs.map Char.toLower)

/-- Python `s.endswith(".")`. -/
def endsWithDot (s : String) : Bool :=
  s.data.getLast? == some '.'

/-- `MFRPromptTool._derive_subject`: flatten newlines, strip, truncate past 120
    characters to 117 plus an ellipsis, capitalize, ensure a trailing period,
    and prefix the MFR marker. -/
def derive_subject (prompt : String) : String :=
  let p := pyStrip (pyReplaceNl prompt)
  let p := if p.length > 120 then String.mk (p.data.take 117) ++ "..." else p
  let p := capitalizePy p
  let p := if endsWithDot p then p else p ++ "."
  "MFR – " ++ p

/-- `MFRPromptTool._derive_paragraphs`: the fixed five-paragraph template. -/
def derive_paragraphs (prompt : String) : List String :=
  let base := pyStrip prompt
  [ "This memorandum records the subject matter: " ++ base,
    "Rationale: This action is intended to improve morale, cohesion, and mission effectiveness while " ++
      "maintaining standards and compliance with applicable guidance.",
    "Execution: Identify responsible OPR/OCRs, establish a short timeline, and coordinate facilities, " ++
      "equipment, and funding requirements as necessary.",
    "Risk & Coordination: Mitigate safety, legal, and logistics risks via appropriate reviews and " ++
      "coordination with stakeholders; document approvals as needed.",
    "Recommendation: Approve the subject initiative and proceed per the execution plan." ]

/-- The document produced by the fallback template generator: a subject line and
    deterministic body paragraphs (handed to the renderer collaborator). -/
structure TemplateDoc where
  subject : String
  body_paragraphs : List String
deriving DecidableEq

/-- `MFRPromptTool.run` up to the renderer boundary: an empty (stripped) prompt
    is reported as an error dict; otherwise the deterministic document is built. -/
def mfr_prompt_run (prompt : String) : Except String TemplateDoc :=
  let p := pyStrip prompt
  if p == "" then Except.error "Missing prompt."
  else Except.ok ⟨derive_subject p, derive_paragraphs p⟩

/-! ### Per-request reliability control flow (docuwrite.main, lines 343-419) -/

inductive Mode where
  | mfr : Mode
  | opord : Mode
deriving DecidableEq

/-- The observable outcome of one request iteration of `main`:
    which stages ran, which failure messages were printed, whether and with what
    argument the fallback tool was invoked, and its result. -/
structure ReqOutcome where
  retrieveAttempted : Bool
  synthAttempted : Bool
  primarySuccess : Bool
  renderFailedMsg : Bool
  pipelineErrorMsg : Option GenError
  fallbackInvoked : Option String
  fallbackResult : Option (Except String TemplateDoc)
  opordNoFallbackMsg : Bool

/-- Lines 410-419: run the MFR fallback when `used_fallback` is set and the mode
    is MFR; print the no-OPORD-fallback notice when it is set and the mode is
    OPORD; otherwise do nothing. -/
def finishFallback (mode : Mode) (usedFallback : Bool) (input : String)
    (base : ReqOutcome) : ReqOutcome :=
  if usedFallback && (mode == Mode.mfr) then
    { base with fallbackInvoked := some input,
                fallbackResult := some (mfr_prompt_run input) }
  else if usedFallback && (mode == Mode.opord) then
    { base with opordNoFallbackMsg := true }
  else base

/-- One request iteration of `main` (lines 343-419). `llmAvailable` is whether
    `build_llm` succeeded at startup; `synth` is the outcome the synthesis call
    would produce (it is only consulted when the LLM is available — retrieval
    and synthesis both live inside `llm_to_*_json`, so neither runs otherwise);
    `renderOk` is the `result.get("ok")` of the primary renderer call. The
    interactive quality-check and signature collaborators are outside the core
    and modelled as non-failing. Every synthesis exception is caught at line
    404 and converted into `used_fallback = (mode == "mfr")`. -/
def handleRequest (mode : Mode) (llmAvailable : Bool) (synth : Except GenError Json)
    (renderOk : Bool) (input : String) : ReqOutcome :=
  let base : ReqOutcome :=
    { retrieveAttempted := llmAvailable, synthAttempted := llmAvailable,
      primarySuccess := false, renderFailedMsg := false, pipelineErrorMsg := none,
      fallbackInvoked := none, fallbackResult := none, opordNoFallbackMsg := false }
  if llmAvailable then
    match synth with
    | Except.ok _ =>
      if renderOk then { base with primarySuccess := true }
      else finishFallback mode (mode == Mode.mfr) input { base with renderFailedMsg := true }
    | Except.error e =>
      finishFallback mode (mode == Mode.mfr) input { base with pipelineErrorMsg := some e }
  else
    finishFallback mode (mode == Mode.mfr) input base

/-! ### Lemmas about the chunker -/

/-- Invariant of the chunker loop: the lines of the emitted chunks, the current
    accumulator, and the unprocessed input together are exactly the input. -/
theorem chunkLinesAux_flatten (m : Nat) :
    ∀ (rest : List String) (chunks : List (List String)) (cur : List String) (total : Nat),
      (chunkLinesAux m rest chunks cur total).flatten = chunks.flatten ++ cur ++ rest := by
  intro rest
  induction rest with
  | nil =>
    intro chunks cur total
    simp only [chunkLinesAux]
    by_cases h : cur.isEmpty
    · rw [if_pos h, List.isEmpty_iff.mp h]
      simp
    · rw [if_neg h]
      simp
  | cons line rest ih =>
    intro chunks cur total
    simp only [chunkLinesAux]
    by_cases h : total + line.length > m ∧ cur ≠ []
    · rw [if_pos h, ih]
      simp
    · rw [if_neg h, ih]
      simp

/-- The chunker loop never emits an empty chunk: the accumulator is only
    appended when non-empty. -/
theorem chunkLinesAux_ne_nil (m : Nat) :
    ∀ (rest : List String) (chunks : List (List String)) (cur : List String) (total : Nat),
      (∀ c ∈ chunks, c ≠ []) →
      ∀ c ∈ chunkLinesAux m rest chunks cur total, c ≠ [] := by
  intro rest
  induction rest with
  | nil =>
    intro chunks cur total hch c hc
    simp only [chunkLinesAux] at hc
    by_cases h : cur.isEmpty
    · rw [if_pos h] at hc
      exact hch c hc
    · rw [if_neg h] at hc
      rcases List.mem_append.mp hc with h1 | h1
      · exact hch c h1
      · rcases List.mem_singleton.mp h1 with rfl
        exact fun hnil => h (by simp [hnil])
  | cons line rest ih =>
    intro chunks cur total hch c hc
    simp only [chunkLinesAux] at hc
    by_cases h : total + line.length > m ∧ cur ≠ []
    · rw [if_pos h] at hc
      refine ih (chunks ++ [cur]) [line] line.length ?_ c hc
      intro c' hc'
      rcases List.mem_append.mp hc' with h1 | h1
      · exact hch c' h1
      · rcases List.mem_singleton.mp h1 with rfl
        exact h.2
    · rw [if_neg h] at hc
      exact ih chunks (cur ++ [line]) (total + line.length) hch c hc

/-- Size invariant of the chunker loop: provided `total` is the character sum
    of the accumulator, every emitted chunk is a single (possibly oversized)
    line or has character sum at most the bound. -/
theorem chunkLinesAux_size (m : Nat) :
    ∀ (rest : List String) (chunks : List (List String)) (cur : List String),
      (∀ c ∈ chunks, c.length = 1 ∨ sumLen c ≤ m) →
      (cur ≠ [] → cur.length = 1 ∨ sumLen cur ≤ m) →
      ∀ c ∈ chunkLinesAux m rest chunks cur (sumLen cur), c.length = 1 ∨ sumLen c ≤ m := by
  intro rest
  induction rest with
  | nil =>
    intro chunks cur hch hcur c hc
    simp only [chunkLinesAux] at hc
    by_cases h : cur.isEmpty
    · rw [if_pos h] at hc
      exact hch c hc
    · rw [if_neg h] at hc
      rcases List.mem_append.mp hc with h1 | h1
      · exact hch c h1
      · rcases List.mem_singleton.mp h1 with rfl
        exact hcur fun hnil => h (by simp [hnil])
  | cons line rest ih =>
    intro chunks cur hch hcur c hc
    simp only [chunkLinesAux] at hc
    by_cases h : sumLen cur + line.length > m ∧ cur ≠ []
    · rw [if_pos h] at hc
      have hl : line.length = sumLen [line] := by simp [sumLen]
      rw [hl] at hc
      refine ih (chunks ++ [cur]) [line] ?_ ?_ c hc
      · intro c' hc'
        rcases List.mem_append.mp hc' with h1 | h1
        · exact hch c' h1
        · rcases List.mem_singleton.mp h1 with rfl
          exact hcur h.2
      · intro _
        left
        rfl
    · rw [if_neg h] at hc
      have hl : sumLen cur + line.length = sumLen (cur ++ [line]) := by simp [sumLen]
      rw [hl] at hc
      refine ih chunks (cur ++ [line]) hch ?_ c hc
      intro _
      by_cases hc0 : cur = []
      · subst hc0
        left
        rfl
      · right
        have hle : sumLen cur + line.length ≤ m := by
          by_contra hgt
          exact h ⟨Nat.lt_of_not_le hgt, hc0⟩
        simpa [sumLen] using hle

/-- The length of a joined chunk is the character sum plus one separator per
    additional line. -/
theorem joinNL_length : ∀ c : List String, c ≠ [] → (joinNL c).length + 1 = sumLen c + c.length := by
  intro c
  induction c with
  | nil => intro h; exact absurd rfl h
  | cons x rest ih =>
    intro _
    cases rest with
    | nil => simp [joinNL, joinWith, sumLen]
    | cons y ys =>
      have hr := ih (by simp)
      have hnl : ("\n" : String).length = 1 := rfl
      simp only [joinNL, joinWith] at hr ⊢
      rw [String.length_append, String.length_append, hnl]
      simp only [sumLen, List.map_cons, List.sum_cons, List.length_cons] at hr ⊢
      omega

/-- C3: for every input text and bound, the chunks of `chunk_text`, as the line
    lists `chunkLines` that the code joins with newlines, concatenate in order
    back to the exact input line sequence; every chunk carries at least one
    input line (the accumulator is only emitted non-empty); and each chunk is a
    contiguous run of whole input lines, so no line is split across chunks —
    the returned strings are exactly those line runs joined with newlines. -/
theorem chunk_reconstructs_lines (t : String) (m : Nat) :
    (chunkLines m (splitLines t)).flatten = splitLines t
  ∧ (∀ c ∈ chunkLines m (splitLines t), c ≠ [] ∧ c <:+: splitLines t)
  ∧ chunk_text t m = (chunkLines m (splitLines t)).map joinNL := by
  have hflat : (chunkLines m (splitLines t)).flatten = splitLines t := by
    have h := chunkLinesAux_flatten m (splitLines t) [] [] 0
    simpa [chunkLines] using h
  refine ⟨hflat, ?_, rfl⟩
  intro c hc
  refine ⟨chunkLinesAux_ne_nil m (splitLines t) [] [] 0 (by simp) c hc, ?_⟩
  exact hflat ▸ List.infix_of_mem_flatten hc

/-- Witness for C3 at a concrete input: two lines of width two with bound two
    split into singleton chunks; the membership hypothesis is discharged at the
    first chunk. -/
theorem chunk_reconstructs_lines_witness :
    (chunkLines 2 (splitLines "ab\ncd")).flatten = splitLines "ab\ncd"
  ∧ (["ab"] ≠ [] ∧ ["ab"] <:+: splitLines "ab\ncd")
  ∧ chunk_text "ab\ncd" 2 = (chunkLines 2 (splitLines "ab\ncd")).map joinNL :=
  ⟨(chunk_reconstructs_lines "ab\ncd" 2).1,
   (chunk_reconstructs_lines "ab\ncd" 2).2.1 ["ab"] (by decide),
   (chunk_reconstructs_lines "ab\ncd" 2).2.2⟩

/-- C7 counterexample: with bound 2 and lines "a", "b", "c", the loop admits
    "a" and "b" into one chunk (their character sum is 2) but the emitted text
    "a\nb" has length 3 > 2 because the joining newline is not counted; that
    chunk is neither the final chunk nor a single oversized line, refuting the
    claim that only those two exceptions may exceed the bound. -/
theorem chunk_size_counterexample :
    chunk_text "a\nb\nc" 2 = ["a\nb", "c"]
  ∧ chunkLines 2 (splitLines "a\nb\nc") = [["a", "b"], ["c"]]
  ∧ ("a\nb").length = 3
  ∧ (["a", "b"] : List String).length ≠ 1
  ∧ "a".length ≤ 2 ∧ "b".length ≤ 2 :=
  ⟨rfl, rfl, rfl, by decide, by decide, by decide⟩

/-- C7 amended: the bound `max_chars` governs the sum of a chunk's line lengths,
    not the length of the joined text: every chunk either is a single input line
    (emitted alone even when longer than the bound) or has line-character sum at
    most the bound, whence its joined text length is at most the bound plus one
    newline per additional line. -/
theorem chunk_size_bound (t : String) (m : Nat) :
    ∀ c ∈ chunkLines m (splitLines t),
      c.length = 1 ∨ (sumLen c ≤ m ∧ (joinNL c).length + 1 ≤ m + c.length) := by
  intro c hc
  have hne : c ≠ [] := chunkLinesAux_ne_nil m (splitLines t) [] [] 0 (by simp) c hc
  have hsz := chunkLinesAux_size m (splitLines t) [] [] (by simp) (fun h => absurd rfl h) c
  rw [show sumLen ([] : List String) = 0 from rfl] at hsz
  rcases hsz hc with h1 | h1
  · exact Or.inl h1
  · refine Or.inr ⟨h1, ?_⟩
    have := joinNL_length c hne
    omega

/-- Witness for C7 amended at the counterexample input: the two-line chunk
    satisfies the sum bound and the joined-length bound. -/
theorem chunk_size_bound_witness :
    (["a", "b"] : List String).length = 1
  ∨ (sumLen ["a", "b"] ≤ 2 ∧ (joinNL ["a", "b"]).length + 1 ≤ 2 + (["a", "b"] : List String).length) :=
  chunk_size_bound "a\nb\nc" 2 ["a", "b"] (by decide)

/-! ### Lemmas about the retriever -/

/-- Counting lemma: a filterMap keeps as many elements as satisfy its guard. -/
theorem length_filterMap_eq_countP {α β : Type} (f : α → Option β) (l : List α) :
    (l.filterMap f).length = l.countP (fun a => (f a).isSome) := by
  induction l with
  | nil => rfl
  | cons a l ih =>
    rw [List.filterMap_cons, List.countP_cons]
    cases h : f a with
    | none => simp [h, ih]
    | some b => simp [h, ih]

/-- The scored list keeps exactly the entries whose doc_type matches and whose
    embedding is non-empty (the two `continue` filters of lines 103-108). -/
theorem scoreEntries_length (q : List ℝ) (dt : String) (idx : List CorpusEntry) :
    (scoreEntries q dt idx).length
      = idx.countP (fun e => e.doc_type == dt && !e.embedding.isEmpty) := by
  rw [scoreEntries, length_filterMap_eq_countP]
  refine List.countP_congr (fun e _ => ?_)
  by_cases h1 : (e.doc_type == dt) = true
  · by_cases h2 : (e.embedding.isEmpty) = true
    · simp [h1, h2]
    · simp [h1, h2]
  · simp [h1]

/-- If no entry has the requested doc_type, nothing is scored. -/
theorem scoreEntries_eq_nil (q : List ℝ) (dt : String) :
    ∀ idx : List CorpusEntry, (∀ e ∈ idx, e.doc_type ≠ dt) →
      scoreEntries q dt idx = [] := by
  intro idx
  induction idx with
  | nil => intro _; rfl
  | cons e idx ih =>
    intro h
    have hne : (e.doc_type == dt) = false := beq_eq_false_iff_ne.mpr (h e (by simp))
    have ih' := ih (fun e' he' => h e' (by simp [he']))
    simp only [scoreEntries, List.filterMap_cons, hne] at ih' ⊢
    exact ih'

/-- C4 counterexample input: one entry of the requested type whose embedding is
    the empty (falsy) list, as for a record lacking the "embedding" field. -/
def cexIndex : List CorpusEntry :=
  [{ doc_type := "mfr", text := "t", embedding := [] }]

/-- C4 counterexample: the entry matches the requested document type, so the
    claimed length is min 1 1 = 1, but retrieval skips entries with a falsy
    embedding and returns nothing. -/
theorem retrieve_count_counterexample :
    retrieveTop [1] "mfr" 1 cexIndex = []
  ∧ cexIndex.countP (fun e => e.doc_type == "mfr") = 1
  ∧ (retrieveTop [1] "mfr" 1 cexIndex).length ≠ min 1 (cexIndex.countP (fun e => e.doc_type == "mfr")) := by
  have h : retrieveTop [1] "mfr" 1 cexIndex = [] := rfl
  have hc : cexIndex.countP (fun e => e.doc_type == "mfr") = 1 := rfl
  refine ⟨h, hc, ?_⟩
  rw [h, hc]
  decide

/-- C4 amended: the retrieval result is sorted by non-increasing similarity
    score, and its length is min k (number of entries whose doc_type matches
    AND whose embedding is present and non-empty) — the embedding filter of
    line 106-108 also reduces the candidate pool, not only the type filter. -/
theorem retrieve_sorted_and_count (q : List ℝ) (dt : String) (k : Nat)
    (idx : List CorpusEntry) :
    List.Sorted (· ≥ ·) ((retrieveTop q dt k idx).map Prod.fst)
  ∧ (retrieveTop q dt k idx).length
      = min k (idx.countP (fun e => e.doc_type == dt && !e.embedding.isEmpty)) := by
  constructor
  · have hs : List.Sorted simGE (List.insertionSort simGE (scoreEntries q dt idx)) :=
      List.sorted_insertionSort simGE _
    have ht : List.Sorted simGE (retrieveTop q dt k idx) :=
      List.Pairwise.sublist (List.take_sublist k _) hs
    exact ht.map Prod.fst (fun a b hab => hab)
  · rw [retrieveTop, List.length_take, List.length_insertionSort, scoreEntries_length]

/-- C8: retrieval on an empty index, and retrieval with no entry of the
    requested document type, both return the empty result (empty context
    string, no passages); the function is total, so no error is raised. -/
theorem retrieve_empty_cases (qEmb : List ℝ) (dt : String) (k : Nat)
    (idx : List CorpusEntry) :
    retrieve_context qEmb dt k [] = ""
  ∧ retrieveTop qEmb dt k [] = []
  ∧ ((∀ e ∈ idx, e.doc_type ≠ dt) →
       retrieve_context qEmb dt k idx = "" ∧ retrieveTop qEmb dt k idx = []) := by
  refine ⟨rfl, by simp [retrieveTop, scoreEntries], fun h => ?_⟩
  have hs : scoreEntries qEmb dt idx = [] := scoreEntries_eq_nil qEmb dt idx h
  constructor
  · unfold retrieve_context
    by_cases hidx : idx.isEmpty
    · rw [if_pos hidx]
    · rw [if_neg hidx]
      simp [hs]
  · simp [retrieveTop, hs]

/-- Witness input for C8: a non-empty index holding only OPORD entries. -/
def w8Index : List CorpusEntry :=
  [{ doc_type := "opord", text := "t", embedding := [1] }]

/-- Witness for C8: querying the MFR type against the OPORD-only index yields
    the empty context and no passages. -/
theorem retrieve_empty_cases_witness :
    retrieve_context [1] "mfr" 4 [] = ""
  ∧ retrieveTop [1] "mfr" 4 [] = []
  ∧ (retrieve_context [1] "mfr" 4 w8Index = "" ∧ retrieveTop [1] "mfr" 4 w8Index = []) :=
  ⟨(retrieve_empty_cases [1] "mfr" 4 w8Index).1,
   (retrieve_empty_cases [1] "mfr" 4 w8Index).2.1,
   (retrieve_empty_cases [1] "mfr" 4 w8Index).2.2
     (fun e he => by
        rcases List.mem_singleton.mp he with rfl
        decide)⟩

/-- C9: `cosine_similarity` returns the normalized dot product exactly when both
    norms are non-zero — and then the divisor is itself non-zero — and returns
    0.0 when either norm is zero, so the division never runs with a zero
    divisor. -/
theorem cosine_similarity_zero_guard (a b : List ℝ) :
    (norm2 a ≠ 0 → norm2 b ≠ 0 →
      cosine_similarity a b = dotProduct a b / (norm2 a * norm2 b)
      ∧ norm2 a * norm2 b ≠ 0)
  ∧ ((norm2 a = 0 ∨ norm2 b = 0) → cosine_similarity a b = 0) := by
  constructor
  · intro ha hb
    have h : ¬(norm2 a = 0 ∨ norm2 b = 0) := by tauto
    rw [cosine_similarity, if_neg h]
    exact ⟨rfl, mul_ne_zero ha hb⟩
  · intro h
    rw [cosine_similarity, if_pos h]

/-- Witness for C9 at unit and zero vectors. -/
theorem cosine_similarity_zero_guard_witness :
    (cosine_similarity [1] [1] = dotProduct [1] [1] / (norm2 [1] * norm2 [1])
      ∧ norm2 [1] * norm2 [1] ≠ 0)
  ∧ cosine_similarity [0] [1] = 0 := by
  have h1 : norm2 ([1] : List ℝ) ≠ 0 := by
    norm_num [norm2]
  have h0 : norm2 ([0] : List ℝ) = 0 := by
    norm_num [norm2]
  exact ⟨(cosine_similarity_zero_guard [1] [1]).1 h1 h1,
         (cosine_similarity_zero_guard [0] [1]).2 (Or.inl h0)⟩

/-! ### Lemmas about the synthesizer JSON contract -/

/-- Key membership and key lookup agree: `k in data` exactly when `data[k]`
    yields a value. -/
theorem hasKey_iff_getKey (d : Json) (k : String) :
    hasKey d k = true ↔ ∃ v, getKey d k = some v := by
  cases d with
  | obj kvs =>
    simp only [hasKey, getKey]
    rw [List.any_eq_true]
    constructor
    · rintro ⟨p, hp, hpk⟩
      have hsome : (kvs.reverse.find? (fun p => p.1 == k)).isSome :=
        List.find?_isSome.mpr ⟨p, List.mem_reverse.mpr hp, hpk⟩
      rcases Option.isSome_iff_exists.mp hsome with ⟨p', hp'⟩
      exact ⟨p'.2, by rw [hp']; rfl⟩
    · rintro ⟨v, hv⟩
      rcases Option.map_eq_some'.mp hv with ⟨p, hfind, hp2⟩
      have hpk := List.find?_some hfind
      exact ⟨p, List.mem_reverse.mp (List.mem_of_find?_eq_some hfind), hpk⟩
  | null => simp [hasKey, getKey]
  | bool b => simp [hasKey, getKey]
  | num q => simp [hasKey, getKey]
  | str s => simp [hasKey, getKey]
  | arr xs => simp [hasKey, getKey]

/-- A fallible result that is no success is some failure. -/
theorem exists_error_of_ne_ok (x : Except GenError Json)
    (h : ∀ d, x ≠ Except.ok d) : ∃ e, x = Except.error e := by
  cases x with
  | error e => exact ⟨e, rfl⟩
  | ok d => exact absurd rfl (h d)

/-- Full success characterization of the MFR extraction/validation tail: it
    succeeds exactly on the parse of the brace window when the subject key is
    present and the sections value is a non-empty JSON array (of any element
    shape), and then it returns that parse unchanged. -/
theorem llmToMfrJsonText_ok_iff (reply : String) (d : Json) :
    llmToMfrJsonText reply = Except.ok d ↔
      (braceWindow reply).bind jsonParse = some d
      ∧ hasKey d "subject" = true
      ∧ ∃ l, getKey d "sections" = some (Json.arr l) ∧ l ≠ [] := by
  unfold llmToMfrJsonText
  cases hbw : braceWindow reply with
  | none => simp
  | some w =>
    cases hp : jsonParse w with
    | none => simp [hp]
    | some data =>
      simp only [hp, Option.some_bind]
      split
      next hcond =>
        have hcond2 : hasKey data "subject" = false ∨ hasKey data "sections" = false := by
          revert hcond
          cases hasKey data "subject" <;> cases hasKey data "sections" <;> simp
        refine ⟨fun habs => absurd habs (by simp), ?_⟩
        rintro ⟨hd, hsub, l', hgl, hl'⟩
        rw [← Option.some_inj.mp hd] at hsub hgl
        rcases hcond2 with hns | hns
        · exact absurd hsub (by simp [hns])
        · have hsk : hasKey data "sections" = true :=
            (hasKey_iff_getKey data "sections").mpr ⟨Json.arr l', hgl⟩
          exact absurd hsk (by simp [hns])
      next hcond =>
        have hks : hasKey data "subject" = true ∧ hasKey data "sections" = true := by
          revert hcond
          cases hasKey data "subject" <;> cases hasKey data "sections" <;> simp
        split
        next l heq =>
          split
          next hl =>
            refine ⟨fun habs => absurd habs (by simp), ?_⟩
            rintro ⟨hd, _, l', hgl, hl'⟩
            rw [← Option.some_inj.mp hd, heq] at hgl
            have hll : l = l' := Json.arr.inj (Option.some_inj.mp hgl)
            exact absurd (hll ▸ List.isEmpty_iff.mp hl) hl'
          next hl =>
            constructor
            · intro hok
              have hd : data = d := Except.ok.inj hok
              subst hd
              exact ⟨rfl, hks.1, l, heq, fun hnil => hl (by simp [hnil])⟩
            · rintro ⟨hd, _, _⟩
              rw [Option.some_inj.mp hd]
        next x hne =>
          refine ⟨fun habs => absurd habs (by simp), ?_⟩
          rintro ⟨hd, _, l', hgl, hl'⟩
          rw [← Option.some_inj.mp hd] at hgl
          exact absurd hgl (by intro hgl'; exact hne l' hgl')

/-- Full success characterization of the OPORD extraction/validation tail. -/
theorem llmToOpordJsonText_ok_iff (reply : String) (d : Json) :
    llmToOpordJsonText reply = Except.ok d ↔
      (braceWindow reply).bind jsonParse = some d
      ∧ ∀ k ∈ opordRequired, hasKey d k = true := by
  unfold llmToOpordJsonText
  cases hbw : braceWindow reply with
  | none => simp
  | some w =>
    cases hp : jsonParse w with
    | none => simp [hp]
    | some data =>
      simp only [hp, Option.some_bind]
      by_cases h : (opordRequired.any (fun k => !hasKey data k)) = true
      · rw [if_pos h]
        rcases List.any_eq_true.mp h with ⟨k0, hk0, hnk⟩
        refine ⟨fun habs => absurd habs (by simp), ?_⟩
        rintro ⟨hd, hall⟩
        rw [← Option.some_inj.mp hd] at hall
        have := hall k0 hk0
        simp [this] at hnk
      · rw [if_neg h]
        constructor
        · intro hok
          have hd : data = d := Except.ok.inj hok
          subst hd
          refine ⟨rfl, fun k hk => ?_⟩
          by_contra hfalse
          refine h (List.any_eq_true.mpr ⟨k, hk, ?_⟩)
          simp only [Bool.not_eq_true] at hfalse ⊢
          simp [hfalse]
        · rintro ⟨hd, _⟩
          rw [Option.some_inj.mp hd]

/-- C5 counterexample input: well-formed JSON with both required keys but a
    string (not an array) as the sections value. -/
def cexReplyMfr : String := "\x7b\"subject\":\"X\",\"sections\":\"abc\"\x7d"

/-- The parse of `cexReplyMfr`. -/
def cexParsedMfr : Json :=
  Json.obj [("subject", Json.str "X"), ("sections", Json.str "abc")]

/-- C5 counterexample: on this reply the synthesis step raises, yet none of
    the four enumerated conditions holds — the completion succeeded, the brace
    window is the whole reply and parses, both required keys are present, and
    the sections field is not an empty array (it is a string): the error
    enumeration in the claim is incomplete. -/
theorem synthesize_error_counterexample :
    synthesizeMfr (Except.ok cexReplyMfr) = Except.error GenError.mfrBadSections
  ∧ braceWindow cexReplyMfr = some cexReplyMfr
  ∧ jsonParse cexReplyMfr = some cexParsedMfr
  ∧ hasKey cexParsedMfr "subject" = true
  ∧ hasKey cexParsedMfr "sections" = true
  ∧ getKey cexParsedMfr "sections" = some (Json.str "abc")
  ∧ getKey cexParsedMfr "sections" ≠ some (Json.arr []) := by
  refine ⟨rfl, rfl, rfl, rfl, rfl, rfl, ?_⟩
  intro h
  rw [show getKey cexParsedMfr "sections" = some (Json.str "abc") from rfl] at h
  simp at h

/-- C5 amended: the synthesis step fails exactly when the completion service
    errors, the reply holds no brace window or the window does not parse as a
    single JSON object, a required key for the variant is missing, or — for the
    MFR variant — the sections value is not a non-empty array (wrong type or
    empty); otherwise it returns the parsed document unchanged. -/
theorem synthesize_error_conditions (m reply : String) :
    synthesizeMfr (Except.error m) = Except.error (GenError.completion m)
  ∧ synthesizeOpord (Except.error m) = Except.error (GenError.completion m)
  ∧ ((braceWindow reply).bind jsonParse = none →
       (∃ e1, synthesizeMfr (Except.ok reply) = Except.error e1)
     ∧ (∃ e2, synthesizeOpord (Except.ok reply) = Except.error e2))
  ∧ (∀ d, (braceWindow reply).bind jsonParse = some d →
       (synthesizeMfr (Except.ok reply) = Except.ok d ↔
         hasKey d "subject" = true ∧ ∃ l, getKey d "sections" = some (Json.arr l) ∧ l ≠ [])
     ∧ (synthesizeOpord (Except.ok reply) = Except.ok d ↔
         ∀ k ∈ opordRequired, hasKey d k = true))
  ∧ (∀ d, synthesizeMfr (Except.ok reply) = Except.ok d →
       (braceWindow reply).bind jsonParse = some d)
  ∧ (∀ d, synthesizeOpord (Except.ok reply) = Except.ok d →
       (braceWindow reply).bind jsonParse = some d) := by
  refine ⟨rfl, rfl, fun hnone => ⟨?_, ?_⟩, fun d hsome => ⟨?_, ?_⟩, fun d hok => ?_, fun d hok => ?_⟩
  · refine exists_error_of_ne_ok _ (fun d hok => ?_)
    have := ((llmToMfrJsonText_ok_iff reply d).mp hok).1
    rw [hnone] at this
    exact absurd this (by simp)
  · refine exists_error_of_ne_ok _ (fun d hok => ?_)
    have := ((llmToOpordJsonText_ok_iff reply d).mp hok).1
    rw [hnone] at this
    exact absurd this (by simp)
  · rw [show synthesizeMfr (Except.ok reply) = llmToMfrJsonText reply from rfl,
        llmToMfrJsonText_ok_iff, hsome]
    simp
  · rw [show synthesizeOpord (Except.ok reply) = llmToOpordJsonText reply from rfl,
        llmToOpordJsonText_ok_iff, hsome]
    simp
  · exact ((llmToMfrJsonText_ok_iff reply d).mp hok).1
  · exact ((llmToOpordJsonText_ok_iff reply d).mp hok).1

/-- C5 witness input: a well-formed MFR reply. -/
def wReplyMfr : String :=
  "\x7b\"subject\":\"S\",\"sections\":[\x7b\"title\":\"T\",\"content\":\"C\"\x7d]\x7d"

/-- The parse of `wReplyMfr`. -/
def wParsedMfr : Json :=
  Json.obj [("subject", Json.str "S"),
            ("sections", Json.arr [Json.obj [("title", Json.str "T"), ("content", Json.str "C")]])]

/-- Witness for C5 amended: a completion failure becomes a generation failure,
    and a well-formed reply is parsed and returned. -/
theorem synthesize_error_conditions_witness :
    synthesizeMfr (Except.error "boom") = Except.error (GenError.completion "boom")
  ∧ synthesizeMfr (Except.ok wReplyMfr) = Except.ok wParsedMfr := by
  refine ⟨(synthesize_error_conditions "boom" wReplyMfr).1, ?_⟩
  refine (((synthesize_error_conditions "boom" wReplyMfr).2.2.2.1 wParsedMfr rfl).1).mpr ?_
  exact ⟨rfl, [Json.obj [("title", Json.str "T"), ("content", Json.str "C")]], rfl, by simp⟩

/-- C6 witness/counterexample input: a non-empty sections list whose single
    element is a bare string, not an object with title/content fields. -/
def cexReplyElems : String := "\x7b\"subject\":\"X\",\"sections\":[\"abc\"]\x7d"

/-- The parse of `cexReplyElems`. -/
def cexParsedElems : Json :=
  Json.obj [("subject", Json.str "X"), ("sections", Json.arr [Json.str "abc"])]

/-- C6 counterexample: a sections list whose element is not an object with
    title and content fields is accepted by the synthesizer, not rejected —
    element shape is never validated before the Renderer. -/
theorem mfr_sections_element_counterexample :
    llmToMfrJsonText cexReplyElems = Except.ok cexParsedElems
  ∧ hasKey (Json.str "abc") "title" = false
  ∧ hasKey (Json.str "abc") "content" = false
  ∧ getKey cexParsedElems "sections" = some (Json.arr [Json.str "abc"]) :=
  ⟨rfl, rfl, rfl, rfl⟩

/-- C6 amended: for a parsed reply with the subject key present, the MFR
    synthesizer rejects a missing sections key, a non-list sections value, and
    an empty list, each with a generation error; but any non-empty list —
    regardless of its elements' shape — passes validation and is returned. -/
theorem mfr_sections_validation (reply w : String) (d : Json)
    (hw : braceWindow reply = some w) (hp : jsonParse w = some d)
    (hsub : hasKey d "subject" = true) :
    (hasKey d "sections" = false →
       llmToMfrJsonText reply = Except.error GenError.mfrMissingKeys)
  ∧ (∀ v, getKey d "sections" = some v → (∀ l, v ≠ Json.arr l) →
       llmToMfrJsonText reply = Except.error GenError.mfrBadSections)
  ∧ (getKey d "sections" = some (Json.arr []) →
       llmToMfrJsonText reply = Except.error GenError.mfrBadSections)
  ∧ (∀ l, getKey d "sections" = some (Json.arr l) → l ≠ [] →
       llmToMfrJsonText reply = Except.ok d) := by
  have hunfold : llmToMfrJsonText reply =
      (if !hasKey d "subject" || !hasKey d "sections" then
        Except.error GenError.mfrMissingKeys
      else
        match getKey d "sections" with
        | some (Json.arr l) =>
          if l.isEmpty then Except.error GenError.mfrBadSections else Except.ok d
        | _ => Except.error GenError.mfrBadSections) := by
    unfold llmToMfrJsonText
    rw [hw]
    show (match jsonParse w with
          | none => Except.error GenError.jsonDecode
          | some data =>
            if !hasKey data "subject" || !hasKey data "sections" then
              Except.error GenError.mfrMissingKeys
            else
              match getKey data "sections" with
              | some (Json.arr l) =>
                if l.isEmpty then Except.error GenError.mfrBadSections else Except.ok data
              | _ => Except.error GenError.mfrBadSections) = _
    rw [hp]
  refine ⟨fun hmiss => ?_, fun v hv hnotarr => ?_, fun hempty => ?_, fun l hl hne => ?_⟩
  · rw [hunfold, if_pos (by simp [hmiss])]
  · have hsk : hasKey d "sections" = true :=
      (hasKey_iff_getKey d "sections").mpr ⟨v, hv⟩
    rw [hunfold, if_neg (by simp [hsub, hsk]), hv]
    cases v with
    | arr l2 => exact absurd rfl (hnotarr l2)
    | null => rfl
    | bool b => rfl
    | num q => rfl
    | str s => rfl
    | obj kvs => rfl
  · have hsk : hasKey d "sections" = true :=
      (hasKey_iff_getKey d "sections").mpr ⟨Json.arr [], hempty⟩
    rw [hunfold, if_neg (by simp [hsub, hsk]), hempty]
    rfl
  · have hsk : hasKey d "sections" = true :=
      (hasKey_iff_getKey d "sections").mpr ⟨Json.arr l, hl⟩
    rw [hunfold, if_neg (by simp [hsub, hsk]), hl]
    show (if l.isEmpty = true then Except.error GenError.mfrBadSections else Except.ok d)
        = Except.ok d
    rw [if_neg (by simp [hne])]

/-- Witness for C6 amended: applied at the concrete accepted reply with a
    string element, discharging the window, parse, subject, non-emptiness and
    array hypotheses there. -/
theorem mfr_sections_validation_witness :
    llmToMfrJsonText cexReplyElems = Except.ok cexParsedElems :=
  (mfr_sections_validation cexReplyElems cexReplyElems cexParsedElems rfl rfl rfl).2.2.2
    [Json.str "abc"] rfl (by simp)

/-! ### Reliability control flow claims -/

/-- C1: for every MFR request with a non-empty (stripped) user text — which the
    request loop guarantees — a synthesis failure of any kind, the
    completion-service failure constructor included, leads the controller to
    invoke the fallback template tool on the raw user text; the deterministic
    template generator then produces a document, and the outcome is a recorded
    fallback result rather than a propagated error. -/
theorem mfr_fallback_on_generation_error (input : String) (e : GenError) (renderOk : Bool)
    (h : pyStrip input ≠ "") :
    (handleRequest Mode.mfr true (Except.error e) renderOk input).fallbackInvoked = some input
  ∧ (handleRequest Mode.mfr true (Except.error e) renderOk input).fallbackResult
      = some (Except.ok ⟨derive_subject (pyStrip input), derive_paragraphs (pyStrip input)⟩)
  ∧ (handleRequest Mode.mfr true (Except.error e) renderOk input).pipelineErrorMsg = some e
  ∧ (handleRequest Mode.mfr true (Except.error e) renderOk input).opordNoFallbackMsg = false := by
  have hb : (pyStrip input == "") = false := beq_eq_false_iff_ne.mpr h
  simp [handleRequest, finishFallback, mfr_prompt_run, hb]

/-- Witness for C1 at a concrete MFR request whose synthesis fails. -/
theorem mfr_fallback_on_generation_error_witness :
    (handleRequest Mode.mfr true (Except.error GenError.noJson) true "squadron dogs memo").fallbackInvoked
      = some "squadron dogs memo"
  ∧ (handleRequest Mode.mfr true (Except.error GenError.noJson) true "squadron dogs memo").fallbackResult
      = some (Except.ok ⟨derive_subject (pyStrip "squadron dogs memo"),
                         derive_paragraphs (pyStrip "squadron dogs memo")⟩)
  ∧ (handleRequest Mode.mfr true (Except.error GenError.noJson) true "squadron dogs memo").pipelineErrorMsg
      = some GenError.noJson
  ∧ (handleRequest Mode.mfr true (Except.error GenError.noJson) true "squadron dogs memo").opordNoFallbackMsg
      = false :=
  mfr_fallback_on_generation_error "squadron dogs memo" GenError.noJson true (by decide)

/-- C2: for every OPORD request whose synthesis fails with a generation error,
    no fallback generation is performed (the fallback tool is never invoked and
    no fallback document exists), the request does not succeed, and the failure
    is surfaced in the outcome as the printed pipeline-failure report carrying
    the error — it is not silently swallowed. -/
theorem opord_no_fallback_surfaces_error (input : String) (e : GenError) (renderOk : Bool) :
    (handleRequest Mode.opord true (Except.error e) renderOk input).fallbackInvoked = none
  ∧ (handleRequest Mode.opord true (Except.error e) renderOk input).fallbackResult = none
  ∧ (handleRequest Mode.opord true (Except.error e) renderOk input).pipelineErrorMsg = some e
  ∧ (handleRequest Mode.opord true (Except.error e) renderOk input).primarySuccess = false := by
  simp [handleRequest, finishFallback]

/-- C10: the MFR fallback also fires when the primary renderer reports failure
    (after a successful synthesis), and when the LLM client failed to
    initialize — and in the latter case neither retrieval nor synthesis is
    attempted, since both live inside the skipped synthesis call. -/
theorem mfr_fallback_other_paths (input : String) (j : Json)
    (synth : Except GenError Json) (renderOk : Bool) :
    (handleRequest Mode.mfr true (Except.ok j) false input).fallbackInvoked = some input
  ∧ (handleRequest Mode.mfr true (Except.ok j) false input).renderFailedMsg = true
  ∧ (handleRequest Mode.mfr false synth renderOk input).fallbackInvoked = some input
  ∧ (handleRequest Mode.mfr false synth renderOk input).synthAttempted = false
  ∧ (handleRequest Mode.mfr false synth renderOk input).retrieveAttempted = false := by
  refine ⟨?_, ?_, ?_, ?_, ?_⟩ <;> simp [handleRequest, finishFallback]
